import Mathlib

/-!
Verification development for the JobsScraper repository.

The definitions below are shallow embeddings of the Python source:
`scraper/utils.py`, `scraper/spiders/config_spider.py` and
`golden_record_gen.py`.  Python strings are modelled as Lean `String`
(with `List Char` used internally), Python `None`-or-string values as
`Option String`, CSV rows (Python dicts) as association lists, and the
mutable `scrapy.Item` field states (key absent / key set to `None` /
key set to a string) as the three-state type `Field`.
-/

namespace JobsScraper

/-- The six ASCII whitespace characters recognised by Python `str.strip`
and by the regex class `\s` on ASCII text. -/
def isPyWs (c : Char) : Bool :=
  c = ' ' || c = '\t' || c = '\n' || c = '\r' || c = '\x0b' || c = '\x0c'

/-- Python `str.strip()` on a character list. -/
def pyStripL (l : List Char) : List Char :=
  ((l.dropWhile isPyWs).reverse.dropWhile isPyWs).reverse

/-- Python `str.strip()` on a string. -/
def pyStrip (s : String) : String := (pyStripL s.toList).asString

/-- ASCII model of Python `str.lower` on one character. -/
def pyLower (c : Char) : Char :=
  if 'A' ≤ c ∧ c ≤ 'Z' then Char.ofNat (c.toNat + 32) else c

/-- `p.lower().startswith("tel:")` from both `normalize_phone` variants. -/
def startsTel (l : List Char) : Bool :=
  (l.take 4).map pyLower = "tel:".toList

/-- `p.split(":", 1)[1]`: everything after the first colon. -/
def splitColonTail (l : List Char) : List Char :=
  (l.dropWhile (fun c => c ≠ ':')).drop 1

/-- `scraper/utils.py`, `normalize_phone`: returns `None` on falsy input,
strips the string, removes a case-insensitive `tel:` front matter, deletes
all whitespace (`re.sub(r"\s+", "", p)`), and returns `None` when the
result is empty (`p or None`). -/
def normalize_phone_u (phone : Option String) : Option String :=
  match phone with
  | none => none
  | some s =>
    if s = "" then none
    else
      let p := pyStripL s.toList
      let p := if startsTel p then splitColonTail p else p
      let p := p.filter (fun c => ¬ isPyWs c)
      if p = [] then none else some p.asString

/-- The separator characters deleted by `golden_record_gen.normalize_phone`
(`for ch in (" ", "\t", "\n", "-", "."): p = p.replace(ch, "")`). -/
def isGoldenSep (c : Char) : Bool :=
  c = ' ' || c = '\t' || c = '\n' || c = '-' || c = '.'

/-- `golden_record_gen.py`, `normalize_phone`: returns `""` on falsy input,
strips, removes a `tel:` front matter, and deletes spaces, tabs, newlines,
dashes and dots. -/
def normalize_phone_g (phone : Option String) : String :=
  match phone with
  | none => ""
  | some s =>
    if s = "" then ""
    else
      let p := pyStripL s.toList
      let p := if startsTel p then splitColonTail p else p
      let p := p.filter (fun c => ¬ isGoldenSep c)
      p.asString

/-- The golden-store normalizer applied to a plain string. -/
def normStr (s : String) : String := normalize_phone_g (some s)

/-- One step of `re.sub(r"\s+", " ", s)`: the boolean records whether the
previous character was whitespace, so a run collapses to one space. -/
def collapseWsAux : Bool → List Char → List Char
  | _, [] => []
  | prevWs, c :: cs =>
    if isPyWs c then
      if prevWs then collapseWsAux true cs else ' ' :: collapseWsAux true cs
    else c :: collapseWsAux false cs

/-- `re.sub(r"\s+", " ", s)`: replace every whitespace run by one space. -/
def collapseWs (l : List Char) : List Char := collapseWsAux false l

/-- `scraper/utils.py`, `clean_text`: `None` passes through; otherwise
whitespace runs collapse to single spaces, the result is stripped, and an
empty result becomes `None` (`s.strip() or None`). -/
def clean_text (s : Option String) : Option String :=
  match s with
  | none => none
  | some s =>
    let t := pyStripL (collapseWs s.toList)
    if t = [] then none else some t.asString

/-- The `css` argument of `extract_first`: `None`, a single string, or an
iterable of strings (`Union[str, Iterable[str], None]`). -/
inductive CssArg where
  | noneArg : CssArg
  | one (s : String) : CssArg
  | many (l : List String) : CssArg
deriving DecidableEq

/-- `scraper/utils.py`, `listify`: `None` gives `[]`, a string gives a
singleton, and an iterable keeps its truthy (non-empty) elements. -/
def listify (v : CssArg) : List String :=
  match v with
  | .noneArg => []
  | .one s => [s]
  | .many l => l.filter (fun s => s ≠ "")

/-- A document node, modelled by what `node.css(sel).get()` returns for
each selector expression: `none` for no match, `some v` for raw text `v`. -/
def Node : Type := String → Option String

/-- The loop body of `extract_first`: skip falsy selectors, query the node,
and on the first truthy raw value return `clean_text` of it. -/
def extractFirstGo (node : Node) : List String → Option String
  | [] => none
  | sel :: rest =>
    if sel = "" then extractFirstGo node rest
    else
      match node sel with
      | none => extractFirstGo node rest
      | some v => if v = "" then extractFirstGo node rest else clean_text (some v)

/-- `scraper/utils.py`, `extract_first`: iterate `listify(css)`, return
`clean_text` of the first truthy `node.css(sel).get()` result, else `None`. -/
def extract_first (node : Node) (css : CssArg) : Option String :=
  extractFirstGo node (listify css)

/-- A CSV row as read by `csv.DictReader`: a Python dict from field names
to string values, modelled as an association list with distinct keys. -/
abbrev Row := List (String × String)

/-- `r.get("phone")`: the value stored under the `phone` key, if any. -/
def lookupPhone (r : Row) : Option String :=
  (r.find? (fun kv => kv.1 = "phone")).map (fun kv => kv.2)

/-- `normalize_phone(r.get("phone"))` as used throughout
`golden_record_gen.py`. -/
def normPh (r : Row) : String := normalize_phone_g (lookupPhone r)

/-- `rr = dict(r); rr["phone"] = ph`: replace the value under the `phone`
key, or append the key when absent. -/
def setPhone (r : Row) (ph : String) : Row :=
  if r.any (fun kv => kv.1 = "phone") then
    r.map (fun kv => if kv.1 = "phone" then ("phone", ph) else kv)
  else r ++ [("phone", ph)]

/-- Lexicographic code-point comparison of character lists, Python string
`<`. -/
def strLtL : List Char → List Char → Bool
  | [], [] => false
  | [], _ :: _ => true
  | _ :: _, [] => false
  | a :: as, b :: bs =>
    if a.toNat < b.toNat then true
    else if b.toNat < a.toNat then false
    else strLtL as bs

/-- Python string `<` on strings. -/
def strLt (a b : String) : Bool := strLtL a.toList b.toList

/-- Python tuple ordering on `(key, value)` string pairs, as used by
`sorted` in `_canon_row_key`. -/
def pairLe (a b : String × String) : Bool :=
  strLt a.1 b.1 || (decide (a.1 = b.1) && !strLt b.2 a.2)

/-- Insert into a `pairLe`-sorted list. -/
def insertPair (x : String × String) : List (String × String) → List (String × String)
  | [] => [x]
  | y :: ys => if pairLe x y then x :: y :: ys else y :: insertPair x ys

/-- `sorted(...)` over the row's `(key, value)` pairs. -/
def sortPairs : List (String × String) → List (String × String)
  | [] => []
  | x :: xs => insertPair x (sortPairs xs)

/-- `golden_record_gen.py`, `_canon_row_key`: sort the `(key, value)`
pairs and join them with `U+241E` inside a pair and `U+241F` between
pairs. -/
def canonKey (r : Row) : String :=
  String.intercalate "␟" ((sortPairs r).map (fun kv => kv.1 ++ "␞" ++ kv.2))

/-- The row actually appended by `build_golden` for an input row `r`:
`rr = dict(r); rr["phone"] = normalize_phone(r.get("phone"))`. -/
def mkG (r : Row) : Row := setPhone r (normPh r)

/-- One pass of the `build_golden` loop body over a list of rows, threading
the `seen` set of canonical keys: rows whose normalized phone is empty are
skipped, rows whose canonical key was already seen are skipped, all other
rows are appended with their phone normalized.  Both the existing-golden
loop and the run-CSV loop of `build_golden` are this same pass. -/
def addRows : List Row → List String → List Row × List String
  | [], seen => ([], seen)
  | r :: rest, seen =>
    let ph := normPh r
    if ph = "" then addRows rest seen
    else
      let rr := setPhone r ph
      let key := canonKey rr
      if key ∈ seen then addRows rest seen
      else
        let out := addRows rest (key :: seen)
        (rr :: out.1, out.2)

/-- `golden_record_gen.py`, `build_golden`: start from the existing golden
rows (first pass) and then walk the run CSV rows (second pass), with one
shared `seen` set; `runs` is the concatenation of all input CSVs in the
order the code visits them. -/
def build_golden (golden runs : List Row) : List Row :=
  let first := addRows golden []
  first.1 ++ (addRows runs first.2).1

/-- `golden_record_gen.py`, `write_csv_rows`, modelled at row granularity:
the target is opened with mode `w` — truncating it immediately — and the
rows are then written one by one, so a failure after `k` rows
(`failAt = some k`) raises out of the function leaving the file holding
only the first `k` intended rows; `failAt = none` is a successful write
leaving all of them. -/
def write_csv_rows (rows : List Row) (failAt : Option Nat) : Option (List Row) :=
  match failAt with
  | none => some rows
  | some k => some (rows.take k)

/-- `golden_record_gen.py`, `augment_csv_with_golden`, the rows it selects
to append: golden rows whose normalized phone is non-empty and absent from
the file's normalized phones, with the phone field normalized. -/
def augment_add_rows (cur golden : List Row) : List Row :=
  let curPhones := (cur.map normPh).filter (fun p => p ≠ "")
  golden.filterMap (fun r =>
    let ph := normPh r
    if ph = "" ∨ ph ∈ curPhones then none else some (setPhone r ph))

/-- `golden_record_gen.py`, `augment_csv_with_golden`: the file is `none`
when `csv_path` does not exist, otherwise `some` of its rows.  The only
fallible step is the single `write_csv_rows` call (see its model above);
the surrounding `try`/`except` turns an exception raised after `k` rows
into a `0` return, with the file left as the write left it.  The result
is the returned count and the file afterwards. -/
def augment_csv_with_golden (file : Option (List Row)) (golden : List Row)
    (failAt : Option Nat) : Nat × Option (List Row) :=
  match file with
  | none => (0, none)
  | some cur =>
    let addR := augment_add_rows cur golden
    if addR = [] then (addR.length, some cur)
    else
      match failAt with
      | none => (addR.length, write_csv_rows (cur ++ addR) none)
      | some k => (0, write_csv_rows (cur ++ addR) (some k))

/-- State of one `scrapy.Item` field: the key may be absent, present with
value `None`, or present with a string value. -/
inductive Field where
  | unset : Field
  | null : Field
  | val (s : String) : Field
deriving DecidableEq

/-- `item[key] = v` where `v : Optional[str]`: assigning `None` stores a
present-but-null key. -/
def ofPy : Option String → Field
  | none => .null
  | some s => .val s

/-- `item.get(key)`: `None` both for an absent key and a stored `None`. -/
def getF : Field → Option String
  | .val s => some s
  | _ => none

/-- Python truthiness of `item.get(key)`. -/
def truthyF : Field → Bool
  | .val s => s ≠ ""
  | _ => false

/-- Python truthiness of an `Optional[str]`. -/
def truthyO : Option String → Bool
  | some s => s ≠ ""
  | none => false

/-- `a or b` on `Optional[str]` values. -/
def pyOrO (a b : Option String) : Option String :=
  match a with
  | some s => if s = "" then b else a
  | none => b

/-- `item.setdefault(key, v)`: stores `v` (even `None`) only when the key
is absent. -/
def setdefaultF (f : Field) (v : Option String) : Field :=
  match f with
  | .unset => ofPy v
  | _ => f

/-- A `ProviderItem` (`scraper/items.py`), with the per-key state of the
underlying item dict. -/
structure Item where
  source : Field := .unset
  category : Field := .unset
  region : Field := .unset
  business_name : Field := .unset
  phone : Field := .unset
  email : Field := .unset
  website : Field := .unset
  address : Field := .unset
  city : Field := .unset
  province : Field := .unset
  postal_code : Field := .unset
  listing_url : Field := .unset
  detail_url : Field := .unset
deriving DecidableEq

/-- `email_val.lower().startswith("mailto:")`. -/
def startsMailto (e : String) : Bool :=
  (e.toList.take 7).map pyLower = "mailto:".toList

/-- `str(...).lower().startswith("http")`. -/
def startsHttp (w : String) : Bool :=
  (w.toList.take 4).map pyLower = "http".toList

/-- `e.split(":", 1)[1].split("?", 1)[0]`, the `mailto:` link cleanup. -/
def stripMailto (e : String) : String :=
  (((e.toList.dropWhile (fun c => c ≠ ':')).drop 1).takeWhile (fun c => c ≠ '?')).asString

/-- `config_spider.py`, `_looks_bad_name`: `None`/empty names, names whose
stripped lowercase form is shorter than 2 characters, and a fixed set of
generic action-link texts are bad. -/
def looks_bad_name (name : Option String) : Bool :=
  match name with
  | none => true
  | some n =>
    if n = "" then true
    else
      let m := ((pyStripL n.toList).map pyLower).asString
      decide (m.length < 2) ||
        decide (m ∈ ["call", "website", "directions", "view details", "more info"])

/-- `config_spider.py`, `parse_listing` lines 518-532, the query-parameter
pagination decision: `need_more` is truthy when a positive
`min_per_source` exceeds the running count, and the next page is requested
when `max_pages` is truthy, the incremented cursor is within it, and
either `need_more` holds or the page just processed produced records. -/
def query_param_next (min_per_source counts produced max_pages cur : Nat) : Bool :=
  let nxt := cur + 1
  let current_count := counts + produced
  let need_more := decide (min_per_source ≠ 0) && decide (current_count < min_per_source)
  (decide (max_pages ≠ 0) && decide (nxt ≤ max_pages)) &&
    (need_more || decide (0 < produced))

/-- Per-source configuration and response context shared by the listing
extraction paths of `parse_listing`. -/
structure ListingCfg where
  source_name : Option String
  category : Option String
  region : Option String
  url : String
  has_detail_fields : Bool
  skip_visited_details : Bool
  visit_website_for_email : Bool
  golden_detail_urls : List String
  golden_phones : List String

/-- The values the selector layer yields for one listing card: each field
is the corresponding `U.extract_first`/`U.extract_attr` result on the
card, plus the in-card discovery fallbacks and detail-link data. -/
structure CardData where
  business_name : Option String
  phone_sel : Option String
  email_sel : Option String
  website_attr : Option String
  address : Option String
  city : Option String
  province : Option String
  postal_code : Option String
  discovered_email : Option String
  discovered_phone : Option String
  has_detail_link_sel : Bool
  detail_link_text : Option String
  detail_link_title : Option String
  itemprop_name : Option String
  detail_href : Option String

/-- What `parse_listing` does with one finished card item: follow the
detail page, visit the business website, emit the item, or drop it. -/
inductive CardOutcome where
  | detailReq (it : Item) : CardOutcome
  | websiteReq (it : Item) : CardOutcome
  | emit (it : Item) : CardOutcome
  | skip : CardOutcome
deriving DecidableEq

/-- The final card gate of `parse_listing`: yield only items with a phone
number. -/
def emitIfPhone (it : Item) : CardOutcome :=
  if truthyF it.phone then .emit it else .skip

/-- `config_spider.py`, `parse_listing` line 382:
`U.absolute_url(response.url, U.extract_attr(card, detail_link_sel, "href"))
if detail_link_sel else None`. -/
def card_detail_url (uj : String → String → String) (cfg : ListingCfg)
    (cd : CardData) : Option String :=
  if cd.has_detail_link_sel then
    cd.detail_href.bind (fun h => if h = "" then none else some (uj cfg.url h))
  else none

/-- `config_spider.py`, `parse_listing` lines 323-384, the item built for
one card: fields from the card's selector results, the mailto cleanup, the
website made absolute, the in-card email/phone discovery fallbacks, the
bad-business-name fallback, and the detail URL when truthy. -/
def card_item (uj : String → String → String) (cfg : ListingCfg)
    (cd : CardData) : Item :=
  let emailVal : Option String :=
    match cd.email_sel with
    | some e => if e ≠ "" ∧ startsMailto e then some (stripMailto e) else some e
    | none => none
  let website : Field :=
    match cd.website_attr with
    | none => .null
    | some w => if w ≠ "" ∧ ¬ startsHttp w then .val (uj cfg.url w) else .val w
  let it : Item :=
    { source := ofPy cfg.source_name
      category := ofPy cfg.category
      region := ofPy cfg.region
      listing_url := .val cfg.url
      business_name := ofPy cd.business_name
      phone := ofPy (normalize_phone_u cd.phone_sel)
      email := ofPy emailVal
      website := website
      address := ofPy cd.address
      city := ofPy cd.city
      province := ofPy cd.province
      postal_code := ofPy cd.postal_code }
  let it := if ¬ truthyF it.email then { it with email := ofPy cd.discovered_email } else it
  let it := if ¬ truthyF it.phone then { it with phone := ofPy cd.discovered_phone } else it
  let it :=
    if looks_bad_name (getF it.business_name) then
      let maybe : Option String :=
        if cd.has_detail_link_sel then pyOrO cd.detail_link_text cd.detail_link_title
        else none
      let maybe := if truthyO maybe then maybe else cd.itemprop_name
      match maybe with
      | some m => if m ≠ "" then { it with business_name := .val m } else it
      | none => it
    else it
  match card_detail_url uj cfg cd with
  | some d => if d ≠ "" then { it with detail_url := .val d } else it
  | none => it

/-- `config_spider.py`, `parse_listing` lines 385-412, the routing for one
finished card item: follow the detail page when a detail URL and detail
fields exist (and the URL is not skipped as already golden), else visit
the website for an email when allowed, else emit only with a phone. -/
def process_card (uj : String → String → String) (cfg : ListingCfg)
    (cd : CardData) : CardOutcome :=
  let it := card_item uj cfg cd
  let phoneVisited : Bool :=
    match getF it.phone with
    | some p => p ∈ cfg.golden_phones
    | none => false
  let wantWebsite : Bool :=
    !truthyF it.email && truthyF it.website && cfg.visit_website_for_email &&
      !(cfg.skip_visited_details && phoneVisited)
  match card_detail_url uj cfg cd with
  | some d =>
    if decide (d ≠ "") && cfg.has_detail_fields &&
        !(cfg.skip_visited_details && decide (d ∈ cfg.golden_detail_urls)) then
      .detailReq it
    else if wantWebsite then .websiteReq it
    else emitIfPhone it
  | none =>
    if wantWebsite then .websiteReq it
    else emitIfPhone it

/-- The `address` value of a structured-data object: absent (so
`obj.get("address") or {}` gives `{}`), a non-dict value, or a dict with
the four postal fields. -/
inductive AddrLike where
  | absent : AddrLike
  | notdict : AddrLike
  | fields (streetAddress addressLocality addressRegion postalCode : Option String) : AddrLike

/-- One flattened JSON-LD object as consumed by `parse_listing` and
`parse_detail`: `typeMatch` records whether `@type` intersects the
business-entity allow-list, and `urlValue` models
`obj.get("url") or obj.get("sameAs")` with a list replaced by its first
element. -/
structure JsonObj where
  typeMatch : Bool
  name : Option String
  legalName : Option String
  telephone : Option String
  email : Option String
  urlValue : Option String
  addr : AddrLike

/-- `config_spider.py`, `parse_listing` lines 438-466, the JSON-LD listing
fallback for one object: skip objects without an accepted type, build a
fresh item from the object's fields, and yield it only when a phone is
present. -/
def jsonld_listing_item (cfg : ListingCfg) (obj : JsonObj) : Option Item :=
  if ¬ obj.typeMatch then none
  else
    let it : Item :=
      { source := ofPy cfg.source_name
        category := ofPy cfg.category
        region := ofPy cfg.region
        listing_url := .val cfg.url
        business_name := ofPy (pyOrO obj.name obj.legalName)
        phone := if truthyO obj.telephone then ofPy (normalize_phone_u obj.telephone) else .null
        email := ofPy obj.email
        website := ofPy obj.urlValue
        address :=
          match obj.addr with
          | .fields a _ _ _ => ofPy a
          | .absent => .null
          | .notdict => .unset
        city :=
          match obj.addr with
          | .fields _ l _ _ => ofPy l
          | .absent => .null
          | .notdict => .unset
        province :=
          match obj.addr with
          | .fields _ _ r _ => ofPy r
          | .absent => .null
          | .notdict => .unset
        postal_code :=
          match obj.addr with
          | .fields _ _ _ p => ofPy p
          | .absent => .null
          | .notdict => .unset }
    if truthyF it.phone then some it else none

/-- `config_spider.py`, `parse_listing` lines 469-505, the opt-in
page-wide `tel:` anchor scan for one anchor: normalize the href, skip
empty results and phones already seen for this source, then build a
best-effort item (name from the configured chain or common alternatives,
website made absolute, address best-effort) and emit it unconditionally. -/
def phone_scan_item (uj : String → String → String) (cfg : ListingCfg)
    (seen : List String) (tel_href : Option String)
    (name1 name2 : Option String) (website_attr : Option String)
    (addr : Option String) : Option Item :=
  match normalize_phone_u tel_href with
  | none => none
  | some ph =>
    if truthyO cfg.source_name ∧ ph ∈ seen then none
    else
      let name := if truthyO name1 then name1 else name2
      some
        { source := ofPy cfg.source_name
          category := ofPy cfg.category
          region := ofPy cfg.region
          listing_url := .val cfg.url
          phone := .val ph
          business_name := ofPy name
          website :=
            match website_attr with
            | some h => if h ≠ "" then .val (uj cfg.url h) else .unset
            | none => .unset
          address := ofPy addr }

/-- Configuration and response context for `parse_detail`. -/
structure DetailCfg where
  jsonld_enabled : Bool
  visit_website_for_email : Bool
  skip_visited_details : Bool
  golden_phones : List String
  url : String

/-- The values the selector layer yields on the detail page: each field is
the result of `U.extract_first`/`U.extract_attr` on the response, plus the
page-level email discovery result. -/
structure DetailVals where
  business_name : Option String
  phone : Option String
  email : Option String
  website_attr : Option String
  address : Option String
  city : Option String
  province : Option String
  postal_code : Option String
  discovered_email : Option String

/-- `config_spider.py`, `parse_detail`, the inner `fill` helper:
`val = U.extract_first(response, sel_any); if val: item[field] = val` —
a truthy detail value overwrites whatever the item held. -/
def detail_fill (f : Field) (v : Option String) : Field :=
  match v with
  | some s => if s = "" then f else .val s
  | none => f

/-- `config_spider.py`, `parse_detail` lines 578-599, JSON-LD enrichment
by one object: skip objects without an accepted type; otherwise
`setdefault` the business name and email, replace a falsy phone when the
object has a truthy telephone, replace a falsy website, and `setdefault`
the four address fields (an absent `address` behaves as `{}`, a non-dict
one is skipped). -/
def enrich (it : Item) (obj : JsonObj) : Item :=
  if ¬ obj.typeMatch then it
  else
    let it := { it with business_name := setdefaultF it.business_name (pyOrO obj.name obj.legalName) }
    let it :=
      if ¬ truthyF it.phone ∧ truthyO obj.telephone then
        { it with phone := ofPy (normalize_phone_u obj.telephone) }
      else it
    let it := { it with email := setdefaultF it.email obj.email }
    let it := if ¬ truthyF it.website then { it with website := ofPy obj.urlValue } else it
    match obj.addr with
    | .notdict => it
    | .absent =>
      { it with
        address := setdefaultF it.address none
        city := setdefaultF it.city none
        province := setdefaultF it.province none
        postal_code := setdefaultF it.postal_code none }
    | .fields a l r p =>
      { it with
        address := setdefaultF it.address a
        city := setdefaultF it.city l
        province := setdefaultF it.province r
        postal_code := setdefaultF it.postal_code p }

/-- `config_spider.py`, `parse_detail` lines 552-575, the selector-driven
part of the detail merge: set the detail URL, overwrite business name and
phone with truthy detail values, fill email only when missing (with the
`mailto:` cleanup, then the page-level discovery, whose result is assigned
even when `None`), fill the website only when missing, and overwrite the
four address fields with truthy detail values. -/
def detailSelectorsMerge (uj : String → String → String) (cfg : DetailCfg)
    (it0 : Item) (dv : DetailVals) : Item :=
  let it := { it0 with detail_url := .val cfg.url }
  let it := { it with business_name := detail_fill it.business_name dv.business_name }
  let it := { it with phone := detail_fill it.phone dv.phone }
  let it :=
    if ¬ truthyF it.email then
      let e1 := detail_fill it.email dv.email
      let e1 :=
        match e1 with
        | .val e => if e ≠ "" ∧ startsMailto e then Field.val (stripMailto e) else e1
        | _ => e1
      { it with email := e1 }
    else it
  let it := if ¬ truthyF it.email then { it with email := ofPy dv.discovered_email } else it
  let it :=
    if ¬ truthyF it.website then
      match dv.website_attr with
      | some h => if h ≠ "" then { it with website := .val (uj cfg.url h) } else it
      | none => it
    else it
  let it := { it with address := detail_fill it.address dv.address }
  let it := { it with city := detail_fill it.city dv.city }
  let it := { it with province := detail_fill it.province dv.province }
  { it with postal_code := detail_fill it.postal_code dv.postal_code }

/-- `config_spider.py`, `parse_detail` lines 552-599, the whole field
merge: the selector-driven part, then JSON-LD enrichment over every
structured-data object when enabled. -/
def parse_detail_merge (uj : String → String → String) (cfg : DetailCfg)
    (it0 : Item) (dv : DetailVals) (objs : List JsonObj) : Item :=
  let it := detailSelectorsMerge uj cfg it0 dv
  if cfg.jsonld_enabled then objs.foldl enrich it else it

/-- What `parse_detail` does after the merge: visit the business website,
emit the item, or drop it. -/
inductive DetailOutcome where
  | websiteReq (it : Item) : DetailOutcome
  | emit (it : Item) : DetailOutcome
  | skip : DetailOutcome
deriving DecidableEq

/-- The final gate of `parse_detail`: emit only if a phone is present. -/
def detailFinish (it : Item) : DetailOutcome :=
  if truthyF it.phone then .emit it else .skip

/-- `config_spider.py`, `parse_detail` lines 601-618: after the merge,
visit the website when the email is still missing and policy allows,
otherwise emit only if a phone is present. -/
def parse_detail_outcome (uj : String → String → String) (cfg : DetailCfg)
    (it0 : Item) (dv : DetailVals) (objs : List JsonObj) : DetailOutcome :=
  let it := parse_detail_merge uj cfg it0 dv objs
  let phoneVisited : Bool :=
    match getF it.phone with
    | some p => p ∈ cfg.golden_phones
    | none => false
  if !truthyF it.email && truthyF it.website && cfg.visit_website_for_email &&
      !(cfg.skip_visited_details && phoneVisited) then
    .websiteReq it
  else detailFinish it

/-- What `parse_website_email` does: hop to the contact page, emit the
item, or drop it. -/
inductive WebOutcome where
  | contactReq (it : Item) : WebOutcome
  | emit (it : Item) : WebOutcome
  | skip : WebOutcome
deriving DecidableEq

/-- The final gate of `parse_website_email`: yield only if a phone is
present. -/
def webFinish (it : Item) : WebOutcome :=
  if truthyF it.phone then .emit it else .skip

/-- `config_spider.py`, `parse_website_email` lines 620-650: fill a
missing email from the page's discovery result; when the email is still
missing, this is the first attempt, and the policy allows, follow a truthy
contact link; otherwise yield only if a phone is present. -/
def parse_website_email (it0 : Item) (discovered : Option String)
    (contact_href : Option String) (tried_contact visit_contact : Bool) : WebOutcome :=
  let it :=
    if ¬ truthyF it0.email then
      match discovered with
      | some m => if m ≠ "" then { it0 with email := .val m } else it0
      | none => it0
    else it0
  if ¬ truthyF it.email ∧ ¬ tried_contact ∧ visit_contact then
    match contact_href with
    | some h => if h ≠ "" then .contactReq it else webFinish it
    | none => webFinish it
  else webFinish it

/-- A trivial concrete model of `urljoin` for closed evaluations. -/
def uj0 : String → String → String := fun _ h => h

/-- Concrete node for selector-resolution evaluations: selector `A`
matches whitespace-only text, selector `B` matches `X`. -/
def node0 : Node := fun s =>
  if s = "A" then some " " else if s = "B" then some "X" else none

/-- A concrete carried-in detail item with every key field populated. -/
def itemA : Item :=
  { source := .val "s", business_name := .val "A", phone := .val "+15550000000",
    email := .val "a@b.c", website := .val "http://x", listing_url := .val "http://l" }

/-- Concrete detail-page selector results: only the business-name chain
matches, yielding `B`. -/
def dvB : DetailVals :=
  { business_name := some "B", phone := none, email := none, website_attr := none,
    address := none, city := none, province := none, postal_code := none,
    discovered_email := none }

/-- A concrete detail configuration with JSON-LD enabled and no website
visits. -/
def dcfg0 : DetailCfg :=
  { jsonld_enabled := true, visit_website_for_email := false,
    skip_visited_details := false, golden_phones := [], url := "http://d" }

/-- Empty carried-in item. -/
def itemEmpty : Item := {}

/-- Detail-page selector results where nothing matches. -/
def dvEmpty : DetailVals :=
  { business_name := none, phone := none, email := none, website_attr := none,
    address := none, city := none, province := none, postal_code := none,
    discovered_email := none }

/-- A structured-data business object carrying the spec's example
telephone. -/
def objTel : JsonObj :=
  { typeMatch := true, name := some "Biz", legalName := none,
    telephone := some "+1 416-555-0100", email := none, urlValue := none,
    addr := .absent }

/-- A row with no phone field at all. -/
def rowNoPhone : Row := [("business_name", "A")]

/-- A row whose stored phone still carries a `tel:` front matter after one
normalization. -/
def rowTel : Row := [("phone", "tel:tel:1")]

/-- Phone `1`, business name `A`. -/
def rowP1A : Row := [("phone", "1"), ("business_name", "A")]

/-- Phone `1`, business name `B`: same normalized phone as `rowP1A`,
different name. -/
def rowP1B : Row := [("phone", "1"), ("business_name", "B")]

/-- Phone `2` only: a phone absent from `rowP1A`-shaped files. -/
def rowP2 : Row := [("phone", "2")]

/-- A concrete item carrying only a phone, for the website-email path. -/
def itemW : Item := { phone := .val "1" }

theorem asString_ne_empty {l : List Char} (h : l ≠ []) : l.asString ≠ "" := by
  intro h2
  apply h
  have : (List.asString l).data = ("" : String).data := by rw [h2]
  simpa [List.asString] using this

theorem dropWhile_eq_self_of_none {p : Char → Bool} {l : List Char}
    (h : ∀ c ∈ l, p c = false) : l.dropWhile p = l := by
  cases l with
  | nil => rfl
  | cons c cs => simp [List.dropWhile, h c (by simp)]

theorem pyStripL_eq_self {l : List Char} (h : ∀ c ∈ l, isPyWs c = false) :
    pyStripL l = l := by
  unfold pyStripL
  rw [dropWhile_eq_self_of_none h,
    dropWhile_eq_self_of_none (fun c hc => h c (by simpa using hc)),
    List.reverse_reverse]

theorem toList_asString (l : List Char) : (List.asString l).toList = l := rfl

theorem lookupPhone_setPhone (r : Row) (ph : String) :
    lookupPhone (setPhone r ph) = some ph := by
  unfold setPhone
  by_cases hany : r.any (fun kv => kv.1 = "phone") = true
  · simp only [hany, if_true]
    induction r with
    | nil => simp at hany
    | cons kv rest ih =>
      by_cases hk : kv.1 = "phone"
      · simp [lookupPhone, List.find?, hk]
      · have : rest.any (fun kv => kv.1 = "phone") = true := by
          simpa [List.any_cons, hk] using hany
        simpa [lookupPhone, List.find?, hk] using ih this
  · simp only [hany, if_false]
    induction r with
    | nil => simp [lookupPhone, List.find?]
    | cons kv rest ih =>
      have hk : (kv.1 = "phone") = False := by
        simp [List.any_cons] at hany
        simp [hany.1]
      have : ¬ rest.any (fun kv => kv.1 = "phone") = true := by
        simp [List.any_cons] at hany ⊢
        exact hany.2
      simpa [lookupPhone, List.find?, hk] using ih this

theorem setPhone_setPhone (r : Row) (ph : String) :
    setPhone (setPhone r ph) ph = setPhone r ph := by
  unfold setPhone
  by_cases hany : r.any (fun kv => kv.1 = "phone") = true
  · have hany2 : (r.map (fun kv => if kv.1 = "phone" then ("phone", ph) else kv)).any
        (fun kv => kv.1 = "phone") = true := by
      rw [List.any_map]
      rcases List.any_eq_true.mp hany with ⟨kv, hmem, hkv⟩
      refine List.any_eq_true.mpr ⟨kv, hmem, ?_⟩
      simp only [Function.comp]
      by_cases hk : kv.1 = "phone" <;> simp [hk] at hkv ⊢
    simp only [hany, if_true, hany2, List.map_map]
    apply List.map_congr_left
    intro kv _
    by_cases hk : kv.1 = "phone" <;> simp [Function.comp, hk]
  · have hany2 : ((r ++ [("phone", ph)]).any (fun kv => kv.1 = "phone")) = true := by
      simp [List.any_append]
    simp only [hany, if_false, hany2, if_true, List.map_append]
    have : r.map (fun kv => if kv.1 = "phone" then ("phone", ph) else kv) = r := by
      nth_rewrite 2 [← List.map_id r]
      apply List.map_congr_left
      intro kv hmem
      have : ¬ kv.1 = "phone" := by
        simp only [List.any_eq_true] at hany
        intro hk
        exact hany ⟨kv, hmem, by simp [hk]⟩
      simp [this]
    simp [this]

theorem normPh_mkG (r : Row) (h : normStr (normPh r) = normPh r) :
    normPh (mkG r) = normPh r := by
  unfold mkG normPh
  rw [lookupPhone_setPhone]
  exact h

theorem mkG_mkG (r : Row) (h : normStr (normPh r) = normPh r) :
    mkG (mkG r) = mkG r := by
  show setPhone (mkG r) (normPh (mkG r)) = mkG r
  rw [normPh_mkG r h]
  show setPhone (setPhone r (normPh r)) (normPh r) = setPhone r (normPh r)
  exact setPhone_setPhone r (normPh r)

theorem addRows_cons_empty (r : Row) (rest : List Row) (seen : List String)
    (h : normPh r = "") : addRows (r :: rest) seen = addRows rest seen := by
  simp [addRows, h]

theorem addRows_cons_seen (r : Row) (rest : List Row) (seen : List String)
    (h : normPh r ≠ "") (h2 : canonKey (mkG r) ∈ seen) :
    addRows (r :: rest) seen = addRows rest seen := by
  simp only [addRows, h, if_false]
  rw [if_pos]
  exact h2

theorem addRows_cons_new (r : Row) (rest : List Row) (seen : List String)
    (h : normPh r ≠ "") (h2 : canonKey (mkG r) ∉ seen) :
    addRows (r :: rest) seen =
      (mkG r :: (addRows rest (canonKey (mkG r) :: seen)).1,
        (addRows rest (canonKey (mkG r) :: seen)).2) := by
  have h2a : canonKey (setPhone r (normPh r)) ∉ seen := h2
  simp only [addRows, h, if_false]
  rw [if_neg h2a]
  rfl

theorem addRows_length_le (l : List Row) (seen : List String) :
    (addRows l seen).1.length ≤ l.length := by
  induction l generalizing seen with
  | nil => simp [addRows]
  | cons r rest ih =>
    by_cases h : normPh r = ""
    · rw [addRows_cons_empty r rest seen h]
      exact Nat.le_succ_of_le (ih seen)
    · by_cases h2 : canonKey (mkG r) ∈ seen
      · rw [addRows_cons_seen r rest seen h h2]
        exact Nat.le_succ_of_le (ih seen)
      · rw [addRows_cons_new r rest seen h h2]
        simpa using ih (canonKey (mkG r) :: seen)

theorem addRows_seen_mem (l : List Row) (seen : List String) (k : String) :
    k ∈ (addRows l seen).2 ↔
      k ∈ (addRows l seen).1.map canonKey ∨ k ∈ seen := by
  induction l generalizing seen with
  | nil => simp [addRows]
  | cons r rest ih =>
    by_cases h : normPh r = ""
    · rw [addRows_cons_empty r rest seen h]; exact ih seen
    · by_cases h2 : canonKey (mkG r) ∈ seen
      · rw [addRows_cons_seen r rest seen h h2]; exact ih seen
      · rw [addRows_cons_new r rest seen h h2]
        simp only [List.map_cons, List.mem_cons]
        rw [ih (canonKey (mkG r) :: seen)]
        simp only [List.mem_cons]
        tauto

theorem addRows_covers (l : List Row) (r : Row) (h : normPh r ≠ "") :
    ∀ seen, r ∈ l → canonKey (mkG r) ∈ (addRows l seen).2 := by
  induction l with
  | nil => intro seen hmem; simp at hmem
  | cons r0 rest ih =>
    intro seen hmem
    rcases List.mem_cons.mp hmem with heq | htail
    · subst heq
      by_cases h2 : canonKey (mkG r) ∈ seen
      · rw [addRows_cons_seen r rest seen h h2]
        exact (addRows_seen_mem rest seen _).mpr (Or.inr h2)
      · rw [addRows_cons_new r rest seen h h2]
        exact (addRows_seen_mem rest _ _).mpr (Or.inr (by simp))
    · by_cases h0 : normPh r0 = ""
      · rw [addRows_cons_empty r0 rest seen h0]; exact ih seen htail
      · by_cases h2 : canonKey (mkG r0) ∈ seen
        · rw [addRows_cons_seen r0 rest seen h0 h2]; exact ih seen htail
        · rw [addRows_cons_new r0 rest seen h0 h2]
          exact ih (canonKey (mkG r0) :: seen) htail

theorem addRows_skip_all (l : List Row) (seen : List String)
    (h : ∀ r ∈ l, normPh r = "" ∨ canonKey (mkG r) ∈ seen) :
    addRows l seen = ([], seen) := by
  induction l with
  | nil => simp [addRows]
  | cons r rest ih =>
    rcases h r (by simp) with h0 | h0
    · rw [addRows_cons_empty r rest seen h0]
      exact ih (fun x hx => h x (by simp [hx]))
    · by_cases hph : normPh r = ""
      · rw [addRows_cons_empty r rest seen hph]
        exact ih (fun x hx => h x (by simp [hx]))
      · rw [addRows_cons_seen r rest seen hph h0]
        exact ih (fun x hx => h x (by simp [hx]))

theorem addRows_out_mem (l : List Row) (seen : List String) (rr : Row)
    (hmem : rr ∈ (addRows l seen).1) :
    ∃ r, r ∈ l ∧ rr = mkG r ∧ normPh r ≠ "" := by
  induction l generalizing seen with
  | nil => simp [addRows] at hmem
  | cons r rest ih =>
    by_cases h : normPh r = ""
    · rw [addRows_cons_empty r rest seen h] at hmem
      rcases ih seen hmem with ⟨r0, h1, h2, h3⟩
      exact ⟨r0, by simp [h1], h2, h3⟩
    · by_cases h2 : canonKey (mkG r) ∈ seen
      · rw [addRows_cons_seen r rest seen h h2] at hmem
        rcases ih seen hmem with ⟨r0, ha, hb, hc⟩
        exact ⟨r0, by simp [ha], hb, hc⟩
      · rw [addRows_cons_new r rest seen h h2] at hmem
        rcases List.mem_cons.mp hmem with heq | htail
        · exact ⟨r, by simp, heq, h⟩
        · rcases ih (canonKey (mkG r) :: seen) htail with ⟨r0, ha, hb, hc⟩
          exact ⟨r0, by simp [ha], hb, hc⟩

theorem addRows_keys (l : List Row) (seen : List String) :
    ((addRows l seen).1.map canonKey).Pairwise (fun a b => a ≠ b) ∧
      ∀ k ∈ (addRows l seen).1.map canonKey, k ∉ seen := by
  induction l generalizing seen with
  | nil => simp [addRows]
  | cons r rest ih =>
    by_cases h : normPh r = ""
    · rw [addRows_cons_empty r rest seen h]; exact ih seen
    · by_cases h2 : canonKey (mkG r) ∈ seen
      · rw [addRows_cons_seen r rest seen h h2]; exact ih seen
      · rw [addRows_cons_new r rest seen h h2]
        rcases ih (canonKey (mkG r) :: seen) with ⟨hpw, hfresh⟩
        constructor
        · simp only [List.map_cons]
          rw [List.pairwise_cons]
          refine ⟨fun k hk => ?_, hpw⟩
          have := hfresh k hk
          simp only [List.mem_cons] at this
          intro heq
          exact this (Or.inl heq.symm)
        · intro k hk
          simp only [List.map_cons, List.mem_cons] at hk
          rcases hk with heq | htail
          · rw [heq]; exact h2
          · have := hfresh k htail
            simp only [List.mem_cons] at this
            intro hseen
            exact this (Or.inr hseen)

theorem addRows_id (X : List Row) (seen : List String)
    (h1 : ∀ x ∈ X, normPh x ≠ "" ∧ mkG x = x)
    (h2 : (X.map canonKey).Pairwise (fun a b => a ≠ b))
    (h3 : ∀ x ∈ X, canonKey x ∉ seen) :
    (addRows X seen).1 = X := by
  induction X generalizing seen with
  | nil => simp [addRows]
  | cons x rest ih =>
    rcases h1 x (by simp) with ⟨hph, hmk⟩
    have hkey : canonKey (mkG x) ∉ seen := by rw [hmk]; exact h3 x (by simp)
    rw [addRows_cons_new x rest seen hph hkey]
    simp only [List.map_cons] at h2
    rw [List.pairwise_cons] at h2
    have htail : (addRows rest (canonKey (mkG x) :: seen)).1 = rest := by
      apply ih
      · exact fun y hy => h1 y (by simp [hy])
      · exact h2.2
      · intro y hy
        simp only [List.mem_cons]
        push_neg
        constructor
        · intro heq
          rw [hmk] at heq
          exact h2.1 (canonKey y) (List.mem_map_of_mem canonKey hy) heq.symm
        · exact h3 y (by simp [hy])
    rw [htail, hmk]

theorem build_golden_eq (G R : List Row) :
    build_golden G R = (addRows G []).1 ++ (addRows R (addRows G []).2).1 := rfl

theorem build_golden_keys_nodup (G R : List Row) :
    ((build_golden G R).map canonKey).Pairwise (fun a b => a ≠ b) := by
  rw [build_golden_eq, List.map_append, List.pairwise_append]
  refine ⟨(addRows_keys G []).1, (addRows_keys R (addRows G []).2).1, ?_⟩
  intro a ha b hb
  have ha2 : a ∈ (addRows G []).2 := (addRows_seen_mem G [] a).mpr (Or.inl ha)
  have hb2 : b ∉ (addRows G []).2 := (addRows_keys R (addRows G []).2).2 b hb
  intro heq
  rw [heq] at ha2
  exact hb2 ha2

theorem build_golden_mem (G R : List Row) (r : Row)
    (h : r ∈ build_golden G R) :
    ∃ r0, (r0 ∈ G ∨ r0 ∈ R) ∧ r = mkG r0 ∧ normPh r0 ≠ "" := by
  rw [build_golden_eq] at h
  rcases List.mem_append.mp h with h1 | h1
  · rcases addRows_out_mem G [] r h1 with ⟨r0, ha, hb, hc⟩
    exact ⟨r0, Or.inl ha, hb, hc⟩
  · rcases addRows_out_mem R (addRows G []).2 r h1 with ⟨r0, ha, hb, hc⟩
    exact ⟨r0, Or.inr ha, hb, hc⟩

theorem build_golden_phones (G R : List Row) (r : Row)
    (h : r ∈ build_golden G R) : ∃ p, lookupPhone r = some p ∧ p ≠ "" := by
  rcases build_golden_mem G R r h with ⟨r0, _, hb, hc⟩
  refine ⟨normPh r0, ?_, hc⟩
  rw [hb]
  exact lookupPhone_setPhone r0 (normPh r0)

theorem build_golden_idem (G R : List Row)
    (hfix : ∀ r ∈ G ++ R, normStr (normPh r) = normPh r) :
    build_golden (build_golden G R) R = build_golden G R := by
  have hX : ∀ x ∈ build_golden G R, normPh x ≠ "" ∧ mkG x = x := by
    intro x hx
    rcases build_golden_mem G R x hx with ⟨r0, hmem, hb, hc⟩
    have hf : normStr (normPh r0) = normPh r0 :=
      hfix r0 (List.mem_append.mpr hmem)
    subst hb
    refine ⟨?_, mkG_mkG r0 hf⟩
    rw [normPh_mkG r0 hf]
    exact hc
  have hpw : ((build_golden G R).map canonKey).Pairwise (fun a b => a ≠ b) :=
    build_golden_keys_nodup G R
  have hid : (addRows (build_golden G R) []).1 = build_golden G R :=
    addRows_id (build_golden G R) [] hX hpw (by simp)
  have hkeysX : ∀ r ∈ R, normPh r ≠ "" →
      canonKey (mkG r) ∈ (build_golden G R).map canonKey := by
    intro r hr hph
    have hcov : canonKey (mkG r) ∈ (addRows R (addRows G []).2).2 :=
      addRows_covers R r hph (addRows G []).2 hr
    rcases (addRows_seen_mem R (addRows G []).2 _).mp hcov with h1 | h1
    · rw [build_golden_eq, List.map_append]
      exact List.mem_append.mpr (Or.inr h1)
    · rcases (addRows_seen_mem G [] _).mp h1 with h2 | h2
      · rw [build_golden_eq, List.map_append]
        exact List.mem_append.mpr (Or.inl h2)
      · simp at h2
  have hskip : addRows R (addRows (build_golden G R) []).2 =
      ([], (addRows (build_golden G R) []).2) := by
    apply addRows_skip_all
    intro r hr
    by_cases hph : normPh r = ""
    · exact Or.inl hph
    · refine Or.inr ?_
      apply (addRows_seen_mem (build_golden G R) [] _).mpr
      refine Or.inl ?_
      rw [hid]
      exact hkeysX r hr hph
  rw [build_golden_eq (build_golden G R) R, hid, hskip]
  simp

/-- C1 counterexample input evaluation: two run rows with the same
normalized phone but different business names both survive the merge. -/
theorem golden_same_phone_two_rows :
    build_golden [] [rowP1A, rowP1B] = [rowP1A, rowP1B] ∧
      rowP1A ≠ rowP1B ∧ normPh rowP1A = normPh rowP1B ∧
      normPh rowP1A = "1" := by decide

/-- C1 (amended): after a merge, no two rows of the updated golden set
share the same canonical full-field key — in particular no two rows are
equal on all fields; rows agreeing only on the normalized phone are not
collapsed. -/
theorem golden_canonKeys_pairwise_distinct (G R : List Row) :
    ((build_golden G R).map canonKey).Pairwise (fun a b => a ≠ b) :=
  build_golden_keys_nodup G R

/-- C3 counterexample: an existing golden row without a phone is dropped
by the merge, so the golden set can shrink. -/
theorem golden_merge_drops_phoneless_row :
    build_golden [rowNoPhone] [] = [] ∧ (0 : Nat) < [rowNoPhone].length := by
  decide

/-- C3 (amended): when every existing golden row has a non-empty,
already-normalized phone (`mkG r = r`) and the golden rows' canonical keys
are pairwise distinct, the merge is append-only — the existing rows
reappear unremoved, unmutated and in order at the front — and the merged
size is between `|G|` and `|G| + |R|`. -/
theorem golden_merge_append_only (G R : List Row)
    (h1 : ∀ r ∈ G, normPh r ≠ "" ∧ mkG r = r)
    (h2 : (G.map canonKey).Pairwise (fun a b => a ≠ b)) :
    (∃ t, build_golden G R = G ++ t) ∧
      G.length ≤ (build_golden G R).length ∧
      (build_golden G R).length ≤ G.length + R.length := by
  have hid : (addRows G []).1 = G := addRows_id G [] h1 h2 (by simp)
  have heq : build_golden G R = G ++ (addRows R (addRows G []).2).1 := by
    rw [build_golden_eq, hid]
  refine ⟨⟨_, heq⟩, ?_, ?_⟩
  · rw [heq]; simp
  · rw [heq, List.length_append]
    have := addRows_length_le R (addRows G []).2
    omega

/-- C3 witness instance: a normalized single-row golden set passes through
a merge with two run rows untouched at the front. -/
theorem golden_merge_append_only_witness :
    (∃ t, build_golden [rowP1A] [rowP1B, rowP1A] = [rowP1A] ++ t) ∧
      [rowP1A].length ≤ (build_golden [rowP1A] [rowP1B, rowP1A]).length ∧
      (build_golden [rowP1A] [rowP1B, rowP1A]).length ≤
        [rowP1A].length + [rowP1B, rowP1A].length :=
  golden_merge_append_only [rowP1A] [rowP1B, rowP1A] (by decide) (by decide)

/-- C4 counterexample: a run row whose phone normalizes to a value still
carrying a `tel:` front matter makes the second merge of the same records
grow the golden set. -/
theorem golden_merge_not_idempotent :
    (build_golden (build_golden [] [rowTel]) [rowTel]).length = 2 ∧
      (build_golden [] [rowTel]).length = 1 := by decide

/-- C4 (amended): whenever the normalized phone of every golden and run
row is a fixed point of normalization (no residual `tel:` front matter),
merging the same run records a second time changes nothing — the golden
set, and hence its size, is unchanged. -/
theorem golden_merge_idempotent_on_normalized (G R : List Row)
    (hfix : ∀ r ∈ G ++ R, normStr (normPh r) = normPh r) :
    build_golden (build_golden G R) R = build_golden G R :=
  build_golden_idem G R hfix

/-- C4 witness instance: with an ordinary phone the double merge is a
no-op. -/
theorem golden_merge_idempotent_witness :
    build_golden (build_golden [] [rowP1A]) [rowP1A] = build_golden [] [rowP1A] :=
  golden_merge_idempotent_on_normalized [] [rowP1A] (by decide)

theorem normalize_phone_u_shape (p q : String)
    (h : normalize_phone_u (some p) = some q) :
    ∃ l : List Char, q = l.asString ∧ l ≠ [] ∧ ∀ c ∈ l, isPyWs c = false := by
  unfold normalize_phone_u at h
  by_cases hp : p = ""
  · simp [hp] at h
  · simp only [hp, if_false] at h
    by_cases hnil :
        ((if startsTel (pyStripL p.toList) then splitColonTail (pyStripL p.toList)
          else pyStripL p.toList).filter (fun c => ¬ isPyWs c)) = []
    · rw [if_pos hnil] at h
      exact absurd h (by simp)
    · rw [if_neg hnil] at h
      refine ⟨_, (Option.some.inj h).symm, hnil, ?_⟩
      intro c hc
      have := List.mem_filter.mp hc
      simpa using this.2

theorem normalize_phone_u_truthy (x : Option String) (s : String)
    (h : normalize_phone_u x = some s) : s ≠ "" := by
  cases x with
  | none => simp [normalize_phone_u] at h
  | some p =>
    rcases normalize_phone_u_shape p s h with ⟨l, hq, hne, _⟩
    rw [hq]
    exact asString_ne_empty hne

theorem normalize_phone_u_idem (p q : String)
    (h : normalize_phone_u (some p) = some q)
    (ht : startsTel q.toList = false) :
    normalize_phone_u (some q) = some q := by
  rcases normalize_phone_u_shape p q h with ⟨l, hq, hne, hws⟩
  subst hq
  rw [toList_asString] at ht
  have hstrip : pyStripL (List.asString l).toList = l := by
    rw [toList_asString]
    exact pyStripL_eq_self hws
  have hfilt : l.filter (fun c => ¬ isPyWs c) = l := by
    apply List.filter_eq_self.mpr
    intro c hc
    simp [hws c hc]
  simp only [normalize_phone_u, if_neg (asString_ne_empty hne), hstrip, ht,
    Bool.false_eq_true, if_false, hfilt, if_neg hne]

theorem normalize_phone_g_shape (p : String) (h : normStr p ≠ "") :
    ∃ l : List Char, normStr p = l.asString ∧ ∀ c ∈ l, isGoldenSep c = false := by
  unfold normStr normalize_phone_g at h ⊢
  by_cases hp : p = ""
  · simp [hp] at h
  · simp only [hp, if_false]
    refine ⟨_, rfl, ?_⟩
    intro c hc
    have := List.mem_filter.mp hc
    simpa using this.2

theorem normStr_idem (p : String)
    (ht : startsTel (normStr p).toList = false)
    (hs : pyStripL (normStr p).toList = (normStr p).toList) :
    normStr (normStr p) = normStr p := by
  by_cases h0 : normStr p = ""
  · rw [h0]; rfl
  · rcases normalize_phone_g_shape p h0 with ⟨l, hq, hsep⟩
    have hl : (normStr p).toList = l := by rw [hq, toList_asString]
    have hfilt : l.filter (fun c => ¬ isGoldenSep c) = l := by
      apply List.filter_eq_self.mpr
      intro c hc
      simp [hsep c hc]
    rw [hl] at hs ht
    show normalize_phone_g (some (normStr p)) = normStr p
    simp only [normalize_phone_g, if_neg h0, hl, hs, ht, Bool.false_eq_true,
      if_false, hfilt, ← hq]

/-- C6 counterexample: a phone whose normalized form still starts with
`tel:` is not a fixed point — both normalizers shrink it again. -/
theorem normalize_phone_not_idempotent :
    normStr (normStr "tel:tel:1") ≠ normStr "tel:tel:1" ∧
      normalize_phone_u (some "tel:tel:1") = some "tel:1" ∧
      normalize_phone_u (some "tel:1") = some "1" := by decide

/-- C6 (amended): phone normalization is idempotent except when one
normalization leaves a string that again starts with `tel:` (or, for the
golden-store variant, leaves stray leading/trailing whitespace characters
it does not delete): under those side conditions
`normalize(normalize p) = normalize p` for both normalizers. -/
theorem normalize_phone_idempotent_no_tel :
    (∀ p q, normalize_phone_u (some p) = some q →
      startsTel q.toList = false → normalize_phone_u (some q) = some q) ∧
    (∀ p, startsTel (normStr p).toList = false →
      pyStripL (normStr p).toList = (normStr p).toList →
      normStr (normStr p) = normStr p) :=
  ⟨normalize_phone_u_idem, normStr_idem⟩

/-- C6 witness instance: ordinary phones are fixed points after one
normalization. -/
theorem normalize_phone_idempotent_witness :
    normalize_phone_u (some "+1416") = some "+1416" ∧
      normStr (normStr "416 555") = normStr "416 555" :=
  ⟨normalize_phone_idempotent_no_tel.1 "+1 416" "+1416" (by decide) (by decide),
    normalize_phone_idempotent_no_tel.2 "416 555" (by decide) (by decide)⟩

theorem extractFirstGo_none (node : Node) (l : List String)
    (h : ∀ sel ∈ l, sel ≠ "" → node sel = none ∨ node sel = some "") :
    extractFirstGo node l = none := by
  induction l with
  | nil => rfl
  | cons sel rest ih =>
    by_cases hs : sel = ""
    · rw [show extractFirstGo node (sel :: rest) = extractFirstGo node rest by
        simp [extractFirstGo, hs]]
      exact ih (fun x hx => h x (by simp [hx]))
    · rcases h sel (by simp) hs with h0 | h0 <;>
      · rw [show extractFirstGo node (sel :: rest) = extractFirstGo node rest by
          simp [extractFirstGo, hs, h0]]
        exact ih (fun x hx => h x (by simp [hx]))

theorem extract_first_all_falsy (node : Node) (css : CssArg)
    (h : ∀ sel ∈ listify css, sel ≠ "" → node sel = none ∨ node sel = some "") :
    extract_first node css = none :=
  extractFirstGo_none node (listify css) h

theorem extract_first_head_truthy (node : Node) (a : String)
    (rest : List String) (v : String) (ha : a ≠ "") (hv : node a = some v)
    (hne : v ≠ "") :
    extract_first node (.many (a :: rest)) = clean_text (some v) := by
  simp [extract_first, listify, ha, extractFirstGo, hv, hne]

theorem extract_first_second_truthy (node : Node) (a b : String)
    (rest : List String) (v : String) (hA : node a = none) (hb : b ≠ "")
    (hB : node b = some v) (hv : v ≠ "") :
    extract_first node (.many (a :: b :: rest)) = clean_text (some v) := by
  by_cases ha : a = ""
  · simp [extract_first, listify, ha, hb, extractFirstGo, hB, hv]
  · simp [extract_first, listify, ha, hb, extractFirstGo, hA, hB, hv]

/-- C8 counterexample: selector `A` matches whitespace-only text and `B`
matches non-empty `X`, yet resolution returns null — it cleans the first
raw match instead of moving on to the first non-empty normalized result. -/
theorem extract_first_whitespace_match_null :
    extract_first node0 (.many ["A", "B"]) = none ∧
      node0 "A" = some " " ∧ node0 "B" = some "X" ∧
      clean_text (some "X") = some "X" := by decide

/-- C8 (amended): resolution iterates the chain in order and returns the
whitespace-normalized text of the first expression whose raw match is
non-empty; it returns null when every expression's raw match is absent or
empty, and also when that first non-empty raw match is whitespace-only.
In the `[A, B, C]` scenario where A matches nothing and B matches
non-blank text, B's cleaned value is returned. -/
theorem extract_first_behavior :
    (∀ (node : Node) (css : CssArg),
      (∀ sel ∈ listify css, sel ≠ "" → node sel = none ∨ node sel = some "") →
      extract_first node css = none) ∧
    (∀ (node : Node) (a : String) (rest : List String) (v : String),
      a ≠ "" → node a = some v → v ≠ "" →
      extract_first node (.many (a :: rest)) = clean_text (some v)) ∧
    (∀ (node : Node) (a b : String) (rest : List String) (v : String),
      node a = none → b ≠ "" → node b = some v → v ≠ "" →
      extract_first node (.many (a :: b :: rest)) = clean_text (some v)) :=
  ⟨extract_first_all_falsy, extract_first_head_truthy, extract_first_second_truthy⟩

/-- C8 witness instance: on a chain `[A, B, C]` where A matches nothing
and B matches `X`, resolution returns `X`. -/
theorem extract_first_behavior_witness :
    extract_first node0 (.many ["Z", "B", "C"]) = clean_text (some "X") ∧
      clean_text (some "X") = some "X" :=
  ⟨extract_first_behavior.2.2 node0 "Z" "B" ["C"] "X" (by decide) (by decide)
    (by decide) (by decide), by decide⟩

/-- C5 counterexample: the structured-data telephone of the spec scenario
is emitted as `+1416-555-0100` — the scraper-side normalizer keeps the
dashes — not as `+14165550100`. -/
theorem structured_phone_not_fully_canonical :
    (parse_detail_merge uj0 dcfg0 itemEmpty dvEmpty [objTel]).phone =
        .val "+1416-555-0100" ∧
      Field.val "+1416-555-0100" ≠ Field.val "+14165550100" ∧
      '-' ∈ "+1416-555-0100".toList := by decide

/-- C5 (amended): the scraper-side normalizer strips only a `tel:` front
matter and whitespace, so `+1 416-555-0100` — including the spec's
structured-data scenario — becomes `+1416-555-0100`, with dashes kept; the
golden-store normalizer additionally deletes dashes and dots, giving
`+14165550100`; neither restricts its output to digits and a leading plus
(parentheses survive), but every scraper-side result is whitespace-free. -/
theorem normalize_phone_separator_behavior :
    (parse_detail_merge uj0 dcfg0 itemEmpty dvEmpty [objTel]).phone =
        .val "+1416-555-0100" ∧
      normalize_phone_u (some "+1 416-555-0100") = some "+1416-555-0100" ∧
      normalize_phone_g (some "+1 416-555-0100") = "+14165550100" ∧
      normalize_phone_g (some "(416) 555.0100") = "(416)5550100" ∧
      (∀ p q, normalize_phone_u (some p) = some q →
        ∀ c ∈ q.toList, isPyWs c = false) := by
  refine ⟨by decide, by decide, by decide, by decide, ?_⟩
  intro p q h c hc
  rcases normalize_phone_u_shape p q h with ⟨l, hq, _, hws⟩
  subst hq
  rw [toList_asString] at hc
  exact hws c hc

/-- C5 witness instance: the universally quantified whitespace-freedom
part applied at a concrete normalization. -/
theorem normalize_phone_separator_witness :
    ∀ c ∈ ("+1416-555-0100").toList, isPyWs c = false :=
  normalize_phone_separator_behavior.2.2.2.2 "+1 416-555-0100"
    "+1416-555-0100" (by decide)

/-- C7: for the query-parameter pagination strategy, with a zero/unset
minimum-per-source target the next page is requested exactly when the page
just processed produced at least one record (within the `max_pages`
bound); with a positive target the next page is requested whenever the
running count is still below the target — even after a zero-record page —
and any request stays within the `max_pages` bound. -/
theorem pagination_next_page_policy
    (min_per_source counts produced max_pages cur : Nat) :
    (min_per_source = 0 →
      (query_param_next min_per_source counts produced max_pages cur = true ↔
        (max_pages ≠ 0 ∧ cur + 1 ≤ max_pages ∧ 1 ≤ produced))) ∧
    (0 < min_per_source →
      ((max_pages ≠ 0 ∧ cur + 1 ≤ max_pages ∧
          counts + produced < min_per_source) →
        query_param_next min_per_source counts produced max_pages cur = true) ∧
      (query_param_next min_per_source counts produced max_pages cur = true →
        max_pages ≠ 0 ∧ cur + 1 ≤ max_pages)) := by
  unfold query_param_next
  simp only [Bool.and_eq_true, Bool.or_eq_true, decide_eq_true_eq]
  constructor
  · intro h0
    subst h0
    constructor
    · rintro ⟨⟨hm, hn⟩, hp⟩
      simp at hp
      exact ⟨hm, hn, hp⟩
    · rintro ⟨hm, hn, hp⟩
      exact ⟨⟨hm, hn⟩, Or.inr hp⟩
  · intro hpos
    constructor
    · rintro ⟨hm, hn, hc⟩
      exact ⟨⟨hm, hn⟩, Or.inl ⟨by omega, hc⟩⟩
    · rintro ⟨⟨hm, hn⟩, _⟩
      exact ⟨hm, hn⟩

/-- C7 witness instance: with no target a page that produced two records
continues; with target 2 and nothing yet produced, a zero-record page
still continues. -/
theorem pagination_next_page_policy_witness :
    query_param_next 0 5 2 3 1 = true ∧ query_param_next 2 0 0 3 1 = true :=
  ⟨((pagination_next_page_policy 0 5 2 3 1).1 rfl).mpr
      ⟨by decide, by decide, by decide⟩,
    ((pagination_next_page_policy 2 0 0 3 1).2 (by decide)).1
      ⟨by decide, by decide, by decide⟩⟩

/-- C10 counterexample: when the single write fails immediately after
truncating the target (exception after 0 rows), the caught exception
yields 0 but the file is left empty — changed, not unchanged. -/
theorem augment_write_failure_truncates :
    augment_csv_with_golden (some [rowP1A]) [rowP2] (some 0) = (0, some []) ∧
      some ([] : List Row) ≠ some [rowP1A] := by decide

/-- C10 (amended): the backfill/augment operation is total (the embedding
is a function) and returns 0 on every exception path; a missing target
file yields 0 with no write, and when every golden row's normalized phone
is empty or already present in the file, the file is not rewritten.  But
it is atomic on failure only up to the point the single write starts:
`write_csv_rows` truncates the target on open and writes row by row, so
an exception after `k` rows leaves the file holding the first `k` intended
rows rather than its old content. -/
theorem augment_csv_error_behavior (golden : List Row) :
    (∀ failAt, augment_csv_with_golden none golden failAt = (0, none)) ∧
    (∀ cur failAt,
      (∀ r ∈ golden, normPh r = "" ∨ normPh r ∈ cur.map normPh) →
      augment_csv_with_golden (some cur) golden failAt = (0, some cur)) ∧
    (∀ cur k, augment_csv_with_golden (some cur) golden (some k) =
      (0, some (if augment_add_rows cur golden = [] then cur
        else (cur ++ augment_add_rows cur golden).take k))) ∧
    (∀ cur, augment_add_rows cur golden ≠ [] →
      augment_csv_with_golden (some cur) golden none =
        ((augment_add_rows cur golden).length,
          some (cur ++ augment_add_rows cur golden))) := by
  refine ⟨?_, ?_, ?_, ?_⟩
  · intro failAt
    rfl
  · intro cur failAt h
    have hnil : augment_add_rows cur golden = [] := by
      apply List.filterMap_eq_nil_iff.mpr
      intro r hr
      rcases h r hr with h0 | h0
      · simp [h0]
      · by_cases hph : normPh r = ""
        · simp [hph]
        · have : normPh r ∈ (cur.map normPh).filter (fun p => p ≠ "") := by
            rw [List.mem_filter]
            exact ⟨h0, by simpa using hph⟩
          simp only [augment_add_rows]
          simp only [this, or_true, if_true]
    simp only [augment_csv_with_golden, hnil]
    rfl
  · intro cur k
    simp only [augment_csv_with_golden]
    split
    · next h =>
      rw [h]
      simp [write_csv_rows, h]
    · next h =>
      simp [write_csv_rows, h]
  · intro cur h
    simp only [augment_csv_with_golden]
    split
    · next h0 => exact absurd h0 h
    · rfl

/-- C10 witness instance: a file already containing the golden phone is
left unchanged with 0 returned, and on a fresh phone a successful write
appends exactly that row. -/
theorem augment_csv_error_behavior_witness :
    augment_csv_with_golden (some [rowP1A]) [rowP1A] (some 3) =
        (0, some [rowP1A]) ∧
      augment_csv_with_golden (some [rowP1A]) [rowP2] none =
        (1, some [rowP1A, rowP2]) :=
  ⟨(augment_csv_error_behavior [rowP1A]).2.1 [rowP1A] (some 3) (by decide),
    by
      have h := (augment_csv_error_behavior [rowP2]).2.2.2 [rowP1A] (by decide)
      rw [h]
      decide⟩

theorem emitIfPhone_emit (x it : Item) (h : emitIfPhone x = .emit it) :
    truthyF it.phone = true := by
  unfold emitIfPhone at h
  split at h
  · next ht => cases h; exact ht
  · cases h

theorem detailFinish_emit (x it : Item) (h : detailFinish x = .emit it) :
    truthyF it.phone = true := by
  unfold detailFinish at h
  split at h
  · next ht => cases h; exact ht
  · cases h

theorem webFinish_emit (x it : Item) (h : webFinish x = .emit it) :
    truthyF it.phone = true := by
  unfold webFinish at h
  split at h
  · next ht => cases h; exact ht
  · cases h

theorem process_card_emit (uj : String → String → String) (cfg : ListingCfg)
    (cd : CardData) (it : Item) (h : process_card uj cfg cd = .emit it) :
    truthyF it.phone = true := by
  unfold process_card at h
  simp only [] at h
  split at h
  · split at h
    · cases h
    · split at h
      · cases h
      · exact emitIfPhone_emit _ _ h
  · split at h
    · cases h
    · exact emitIfPhone_emit _ _ h

theorem jsonld_listing_item_phone (cfg : ListingCfg) (obj : JsonObj)
    (it : Item) (h : jsonld_listing_item cfg obj = some it) :
    truthyF it.phone = true := by
  unfold jsonld_listing_item at h
  simp only [] at h
  repeat' split at h
  all_goals cases h
  all_goals assumption

theorem phone_scan_item_phone (uj : String → String → String)
    (cfg : ListingCfg) (seen : List String) (tel_href : Option String)
    (name1 name2 website_attr addr : Option String) (it : Item)
    (h : phone_scan_item uj cfg seen tel_href name1 name2 website_attr addr
        = some it) : truthyF it.phone = true := by
  unfold phone_scan_item at h
  split at h
  · cases h
  · next ph heq =>
    simp only [] at h
    split at h
    · cases h
    · cases h
      simpa [truthyF] using normalize_phone_u_truthy tel_href ph heq

theorem parse_detail_outcome_emit (uj : String → String → String)
    (cfg : DetailCfg) (it0 : Item) (dv : DetailVals) (objs : List JsonObj)
    (it : Item) (h : parse_detail_outcome uj cfg it0 dv objs = .emit it) :
    truthyF it.phone = true := by
  unfold parse_detail_outcome at h
  simp only [] at h
  split at h
  · cases h
  · exact detailFinish_emit _ _ h

theorem parse_website_email_emit (it0 : Item) (discovered : Option String)
    (contact_href : Option String) (tried_contact visit_contact : Bool)
    (it : Item)
    (h : parse_website_email it0 discovered contact_href tried_contact
        visit_contact = .emit it) : truthyF it.phone = true := by
  unfold parse_website_email at h
  simp only [] at h
  repeat' split at h
  all_goals first
    | cases h
    | exact webFinish_emit _ _ h

/-- C2: on every extraction path — listing cards, the JSON-LD listing
fallback, the page-wide phone scan, detail pages, and external-site /
contact-page email hunting — an item is emitted only with a truthy phone,
and every row of the built golden set stores a non-empty phone. -/
theorem emitted_records_have_phone :
    (∀ (uj : String → String → String) (cfg : ListingCfg) (cd : CardData)
        (it : Item), process_card uj cfg cd = .emit it →
      truthyF it.phone = true) ∧
    (∀ (cfg : ListingCfg) (obj : JsonObj) (it : Item),
      jsonld_listing_item cfg obj = some it → truthyF it.phone = true) ∧
    (∀ (uj : String → String → String) (cfg : ListingCfg)
        (seen : List String) (tel_href name1 name2 website_attr addr :
        Option String) (it : Item),
      phone_scan_item uj cfg seen tel_href name1 name2 website_attr addr
          = some it → truthyF it.phone = true) ∧
    (∀ (uj : String → String → String) (cfg : DetailCfg) (it0 : Item)
        (dv : DetailVals) (objs : List JsonObj) (it : Item),
      parse_detail_outcome uj cfg it0 dv objs = .emit it →
      truthyF it.phone = true) ∧
    (∀ (it0 : Item) (discovered contact_href : Option String)
        (tried_contact visit_contact : Bool) (it : Item),
      parse_website_email it0 discovered contact_href tried_contact
          visit_contact = .emit it → truthyF it.phone = true) ∧
    (∀ (G R : List Row) (r : Row), r ∈ build_golden G R →
      ∃ p, lookupPhone r = some p ∧ p ≠ "") :=
  ⟨process_card_emit, jsonld_listing_item_phone, phone_scan_item_phone,
    parse_detail_outcome_emit, parse_website_email_emit, build_golden_phones⟩

/-- C2 witness instance: a concrete item emitted by the website-email path
carries a truthy phone, and a concrete golden row has a non-empty stored
phone. -/
theorem emitted_records_have_phone_witness :
    truthyF itemW.phone = true ∧
      (∃ p, lookupPhone rowP1A = some p ∧ p ≠ "") :=
  ⟨emitted_records_have_phone.2.2.2.2.1 itemW none none true false itemW
      (by decide),
    emitted_records_have_phone.2.2.2.2.2 [] [rowP1A] rowP1A (by decide)⟩

theorem setdefaultF_ne_unset (f : Field) (v : Option String)
    (h : f ≠ .unset) : setdefaultF f v = f := by
  cases f <;> simp_all [setdefaultF]

theorem enrich_business_name_ne_unset (it : Item) (obj : JsonObj)
    (h : it.business_name ≠ .unset) :
    (enrich it obj).business_name = it.business_name := by
  unfold enrich
  simp only []
  repeat' split
  all_goals first
    | rfl
    | simp_all [setdefaultF_ne_unset]

theorem enrich_email_ne_unset (it : Item) (obj : JsonObj)
    (h : it.email ≠ .unset) : (enrich it obj).email = it.email := by
  unfold enrich
  simp only []
  repeat' split
  all_goals first
    | rfl
    | simp_all [setdefaultF_ne_unset]

theorem enrich_phone_truthy (it : Item) (obj : JsonObj)
    (h : truthyF it.phone = true) : (enrich it obj).phone = it.phone := by
  unfold enrich
  simp only []
  repeat' split
  all_goals first
    | rfl
    | simp_all

theorem enrich_website_truthy (it : Item) (obj : JsonObj)
    (h : truthyF it.website = true) : (enrich it obj).website = it.website := by
  unfold enrich
  simp only []
  repeat' split
  all_goals rfl

theorem enrich_address_ne_unset (it : Item) (obj : JsonObj)
    (h : it.address ≠ .unset) : (enrich it obj).address = it.address := by
  unfold enrich
  simp only []
  repeat' split
  all_goals first
    | rfl
    | simp_all [setdefaultF_ne_unset]

theorem enrich_city_ne_unset (it : Item) (obj : JsonObj)
    (h : it.city ≠ .unset) : (enrich it obj).city = it.city := by
  unfold enrich
  simp only []
  repeat' split
  all_goals first
    | rfl
    | simp_all [setdefaultF_ne_unset]

theorem enrich_province_ne_unset (it : Item) (obj : JsonObj)
    (h : it.province ≠ .unset) : (enrich it obj).province = it.province := by
  unfold enrich
  simp only []
  repeat' split
  all_goals first
    | rfl
    | simp_all [setdefaultF_ne_unset]

theorem enrich_postal_code_ne_unset (it : Item) (obj : JsonObj)
    (h : it.postal_code ≠ .unset) : (enrich it obj).postal_code = it.postal_code := by
  unfold enrich
  simp only []
  repeat' split
  all_goals first
    | rfl
    | simp_all [setdefaultF_ne_unset]

theorem foldl_enrich_business_name (objs : List JsonObj) (it : Item)
    (h : it.business_name ≠ .unset) :
    (objs.foldl enrich it).business_name = it.business_name := by
  induction objs generalizing it with
  | nil => rfl
  | cons o os ih =>
    rw [List.foldl_cons]
    have he := enrich_business_name_ne_unset it o h
    rw [ih (enrich it o) (by rw [he]; exact h), he]

theorem foldl_enrich_email (objs : List JsonObj) (it : Item)
    (h : it.email ≠ .unset) : (objs.foldl enrich it).email = it.email := by
  induction objs generalizing it with
  | nil => rfl
  | cons o os ih =>
    rw [List.foldl_cons]
    have he := enrich_email_ne_unset it o h
    rw [ih (enrich it o) (by rw [he]; exact h), he]

theorem foldl_enrich_phone (objs : List JsonObj) (it : Item)
    (h : truthyF it.phone = true) : (objs.foldl enrich it).phone = it.phone := by
  induction objs generalizing it with
  | nil => rfl
  | cons o os ih =>
    rw [List.foldl_cons]
    have he := enrich_phone_truthy it o h
    rw [ih (enrich it o) (by rw [he]; exact h), he]

theorem foldl_enrich_website (objs : List JsonObj) (it : Item)
    (h : truthyF it.website = true) :
    (objs.foldl enrich it).website = it.website := by
  induction objs generalizing it with
  | nil => rfl
  | cons o os ih =>
    rw [List.foldl_cons]
    have he := enrich_website_truthy it o h
    rw [ih (enrich it o) (by rw [he]; exact h), he]

theorem foldl_enrich_address (objs : List JsonObj) (it : Item)
    (h : it.address ≠ .unset) : (objs.foldl enrich it).address = it.address := by
  induction objs generalizing it with
  | nil => rfl
  | cons o os ih =>
    rw [List.foldl_cons]
    have he := enrich_address_ne_unset it o h
    rw [ih (enrich it o) (by rw [he]; exact h), he]

theorem foldl_enrich_city (objs : List JsonObj) (it : Item)
    (h : it.city ≠ .unset) : (objs.foldl enrich it).city = it.city := by
  induction objs generalizing it with
  | nil => rfl
  | cons o os ih =>
    rw [List.foldl_cons]
    have he := enrich_city_ne_unset it o h
    rw [ih (enrich it o) (by rw [he]; exact h), he]

theorem foldl_enrich_province (objs : List JsonObj) (it : Item)
    (h : it.province ≠ .unset) : (objs.foldl enrich it).province = it.province := by
  induction objs generalizing it with
  | nil => rfl
  | cons o os ih =>
    rw [List.foldl_cons]
    have he := enrich_province_ne_unset it o h
    rw [ih (enrich it o) (by rw [he]; exact h), he]

theorem foldl_enrich_postal_code (objs : List JsonObj) (it : Item)
    (h : it.postal_code ≠ .unset) : (objs.foldl enrich it).postal_code = it.postal_code := by
  induction objs generalizing it with
  | nil => rfl
  | cons o os ih =>
    rw [List.foldl_cons]
    have he := enrich_postal_code_ne_unset it o h
    rw [ih (enrich it o) (by rw [he]; exact h), he]

theorem detailSelectorsMerge_business_name (uj : String → String → String)
    (cfg : DetailCfg) (it0 : Item) (dv : DetailVals) :
    (detailSelectorsMerge uj cfg it0 dv).business_name =
      detail_fill it0.business_name dv.business_name := by
  unfold detailSelectorsMerge
  simp only []
  repeat' split
  all_goals rfl

theorem detailSelectorsMerge_phone (uj : String → String → String)
    (cfg : DetailCfg) (it0 : Item) (dv : DetailVals) :
    (detailSelectorsMerge uj cfg it0 dv).phone =
      detail_fill it0.phone dv.phone := by
  unfold detailSelectorsMerge
  simp only []
  repeat' split
  all_goals rfl

theorem detailSelectorsMerge_email_truthy (uj : String → String → String)
    (cfg : DetailCfg) (it0 : Item) (dv : DetailVals)
    (h : truthyF it0.email = true) :
    (detailSelectorsMerge uj cfg it0 dv).email = it0.email := by
  unfold detailSelectorsMerge
  simp only []
  repeat' split
  all_goals first
    | rfl
    | simp_all

theorem detailSelectorsMerge_website_truthy (uj : String → String → String)
    (cfg : DetailCfg) (it0 : Item) (dv : DetailVals)
    (h : truthyF it0.website = true) :
    (detailSelectorsMerge uj cfg it0 dv).website = it0.website := by
  unfold detailSelectorsMerge
  simp only []
  repeat' split
  all_goals rfl

theorem detailSelectorsMerge_address (uj : String → String → String)
    (cfg : DetailCfg) (it0 : Item) (dv : DetailVals) :
    (detailSelectorsMerge uj cfg it0 dv).address =
      detail_fill it0.address dv.address := by
  unfold detailSelectorsMerge
  simp only []
  repeat' split
  all_goals rfl

theorem detailSelectorsMerge_city (uj : String → String → String)
    (cfg : DetailCfg) (it0 : Item) (dv : DetailVals) :
    (detailSelectorsMerge uj cfg it0 dv).city =
      detail_fill it0.city dv.city := by
  unfold detailSelectorsMerge
  simp only []
  repeat' split
  all_goals rfl

theorem detailSelectorsMerge_province (uj : String → String → String)
    (cfg : DetailCfg) (it0 : Item) (dv : DetailVals) :
    (detailSelectorsMerge uj cfg it0 dv).province =
      detail_fill it0.province dv.province := by
  unfold detailSelectorsMerge
  simp only []
  repeat' split
  all_goals rfl

theorem detailSelectorsMerge_postal_code (uj : String → String → String)
    (cfg : DetailCfg) (it0 : Item) (dv : DetailVals) :
    (detailSelectorsMerge uj cfg it0 dv).postal_code =
      detail_fill it0.postal_code dv.postal_code := by
  unfold detailSelectorsMerge
  simp only []
  repeat' split
  all_goals rfl

theorem truthyF_ne_unset (f : Field) (h : truthyF f = true) : f ≠ .unset := by
  cases f <;> simp_all [truthyF]

/-- C9 counterexample: a business name populated on the carried-in record
is overwritten by the detail page's selector value. -/
theorem detail_overwrites_populated_name :
    itemA.business_name = .val "A" ∧ truthyF itemA.business_name = true ∧
      (parse_detail_merge uj0 dcfg0 itemA dvB []).business_name = .val "B" := by
  decide

/-- C9 (amended): on detail pages only email and website have
fill-if-absent semantics, and JSON-LD enrichment is set-if-absent; the
selector-extracted fields business name, phone, address, city, province
and postal code are overwritten by any non-empty detail value, keeping the
carried-in value only when the detail chain yields nothing. -/
theorem detail_merge_field_semantics :
    (∀ (uj : String → String → String) (cfg : DetailCfg) (it0 : Item)
        (dv : DetailVals) (objs : List JsonObj) (v : String),
      dv.business_name = some v → v ≠ "" →
      (parse_detail_merge uj cfg it0 dv objs).business_name = .val v) ∧
    (∀ (uj : String → String → String) (cfg : DetailCfg) (it0 : Item)
        (dv : DetailVals) (objs : List JsonObj), truthyF it0.email = true →
      (parse_detail_merge uj cfg it0 dv objs).email = it0.email) ∧
    (∀ (uj : String → String → String) (cfg : DetailCfg) (it0 : Item)
        (dv : DetailVals) (objs : List JsonObj), truthyF it0.website = true →
      (parse_detail_merge uj cfg it0 dv objs).website = it0.website) ∧
    (∀ (uj : String → String → String) (cfg : DetailCfg) (it0 : Item)
        (dv : DetailVals) (objs : List JsonObj), dv.phone = none →
      truthyF it0.phone = true →
      (parse_detail_merge uj cfg it0 dv objs).phone = it0.phone) ∧
    (∀ (uj : String → String → String) (cfg : DetailCfg) (it0 : Item)
        (dv : DetailVals) (objs : List JsonObj), dv.business_name = none →
      it0.business_name ≠ .unset →
      (parse_detail_merge uj cfg it0 dv objs).business_name =
        it0.business_name) ∧
    (∀ (uj : String → String → String) (cfg : DetailCfg) (it0 : Item)
        (dv : DetailVals) (objs : List JsonObj) (v : String),
      dv.phone = some v → v ≠ "" →
      (parse_detail_merge uj cfg it0 dv objs).phone = .val v) ∧
    (∀ (uj : String → String → String) (cfg : DetailCfg) (it0 : Item)
        (dv : DetailVals) (objs : List JsonObj) (v : String),
      dv.address = some v → v ≠ "" →
      (parse_detail_merge uj cfg it0 dv objs).address = .val v) ∧
    (∀ (uj : String → String → String) (cfg : DetailCfg) (it0 : Item)
        (dv : DetailVals) (objs : List JsonObj) (v : String),
      dv.city = some v → v ≠ "" →
      (parse_detail_merge uj cfg it0 dv objs).city = .val v) ∧
    (∀ (uj : String → String → String) (cfg : DetailCfg) (it0 : Item)
        (dv : DetailVals) (objs : List JsonObj) (v : String),
      dv.province = some v → v ≠ "" →
      (parse_detail_merge uj cfg it0 dv objs).province = .val v) ∧
    (∀ (uj : String → String → String) (cfg : DetailCfg) (it0 : Item)
        (dv : DetailVals) (objs : List JsonObj) (v : String),
      dv.postal_code = some v → v ≠ "" →
      (parse_detail_merge uj cfg it0 dv objs).postal_code = .val v) ∧
    (∀ (uj : String → String → String) (cfg : DetailCfg) (it0 : Item)
        (dv : DetailVals) (objs : List JsonObj), dv.address = none →
      it0.address ≠ .unset →
      (parse_detail_merge uj cfg it0 dv objs).address = it0.address) ∧
    (∀ (uj : String → String → String) (cfg : DetailCfg) (it0 : Item)
        (dv : DetailVals) (objs : List JsonObj), dv.city = none →
      it0.city ≠ .unset →
      (parse_detail_merge uj cfg it0 dv objs).city = it0.city) ∧
    (∀ (uj : String → String → String) (cfg : DetailCfg) (it0 : Item)
        (dv : DetailVals) (objs : List JsonObj), dv.province = none →
      it0.province ≠ .unset →
      (parse_detail_merge uj cfg it0 dv objs).province = it0.province) ∧
    (∀ (uj : String → String → String) (cfg : DetailCfg) (it0 : Item)
        (dv : DetailVals) (objs : List JsonObj), dv.postal_code = none →
      it0.postal_code ≠ .unset →
      (parse_detail_merge uj cfg it0 dv objs).postal_code = it0.postal_code) := by
  refine ⟨?_, ?_, ?_, ?_, ?_, ?_, ?_, ?_, ?_, ?_, ?_, ?_, ?_, ?_⟩
  · intro uj cfg it0 dv objs v hdv hv
    have hX : (detailSelectorsMerge uj cfg it0 dv).business_name = .val v := by
      rw [detailSelectorsMerge_business_name, hdv]
      simp [detail_fill, hv]
    unfold parse_detail_merge
    simp only []
    split
    · rw [foldl_enrich_business_name _ _ (by rw [hX]; simp), hX]
    · exact hX
  · intro uj cfg it0 dv objs h
    have hX := detailSelectorsMerge_email_truthy uj cfg it0 dv h
    unfold parse_detail_merge
    simp only []
    split
    · rw [foldl_enrich_email _ _ (by rw [hX]; exact truthyF_ne_unset _ h), hX]
    · exact hX
  · intro uj cfg it0 dv objs h
    have hX := detailSelectorsMerge_website_truthy uj cfg it0 dv h
    unfold parse_detail_merge
    simp only []
    split
    · rw [foldl_enrich_website _ _ (by rw [hX]; exact h), hX]
    · exact hX
  · intro uj cfg it0 dv objs hdv h
    have hX : (detailSelectorsMerge uj cfg it0 dv).phone = it0.phone := by
      rw [detailSelectorsMerge_phone, hdv]
      rfl
    unfold parse_detail_merge
    simp only []
    split
    · rw [foldl_enrich_phone _ _ (by rw [hX]; exact h), hX]
    · exact hX
  · intro uj cfg it0 dv objs hdv h
    have hX : (detailSelectorsMerge uj cfg it0 dv).business_name =
        it0.business_name := by
      rw [detailSelectorsMerge_business_name, hdv]
      rfl
    unfold parse_detail_merge
    simp only []
    split
    · rw [foldl_enrich_business_name _ _ (by rw [hX]; exact h), hX]
    · exact hX
  · intro uj cfg it0 dv objs v hdv hv
    have hX : (detailSelectorsMerge uj cfg it0 dv).phone = .val v := by
      rw [detailSelectorsMerge_phone, hdv]
      simp [detail_fill, hv]
    unfold parse_detail_merge
    simp only []
    split
    · rw [foldl_enrich_phone _ _ (by rw [hX]; simp [truthyF, hv]), hX]
    · exact hX
  · intro uj cfg it0 dv objs v hdv hv
    have hX : (detailSelectorsMerge uj cfg it0 dv).address = .val v := by
      rw [detailSelectorsMerge_address, hdv]
      simp [detail_fill, hv]
    unfold parse_detail_merge
    simp only []
    split
    · rw [foldl_enrich_address _ _ (by rw [hX]; simp), hX]
    · exact hX
  · intro uj cfg it0 dv objs v hdv hv
    have hX : (detailSelectorsMerge uj cfg it0 dv).city = .val v := by
      rw [detailSelectorsMerge_city, hdv]
      simp [detail_fill, hv]
    unfold parse_detail_merge
    simp only []
    split
    · rw [foldl_enrich_city _ _ (by rw [hX]; simp), hX]
    · exact hX
  · intro uj cfg it0 dv objs v hdv hv
    have hX : (detailSelectorsMerge uj cfg it0 dv).province = .val v := by
      rw [detailSelectorsMerge_province, hdv]
      simp [detail_fill, hv]
    unfold parse_detail_merge
    simp only []
    split
    · rw [foldl_enrich_province _ _ (by rw [hX]; simp), hX]
    · exact hX
  · intro uj cfg it0 dv objs v hdv hv
    have hX : (detailSelectorsMerge uj cfg it0 dv).postal_code = .val v := by
      rw [detailSelectorsMerge_postal_code, hdv]
      simp [detail_fill, hv]
    unfold parse_detail_merge
    simp only []
    split
    · rw [foldl_enrich_postal_code _ _ (by rw [hX]; simp), hX]
    · exact hX
  · intro uj cfg it0 dv objs hdv h
    have hX : (detailSelectorsMerge uj cfg it0 dv).address = it0.address := by
      rw [detailSelectorsMerge_address, hdv]
      rfl
    unfold parse_detail_merge
    simp only []
    split
    · rw [foldl_enrich_address _ _ (by rw [hX]; exact h), hX]
    · exact hX
  · intro uj cfg it0 dv objs hdv h
    have hX : (detailSelectorsMerge uj cfg it0 dv).city = it0.city := by
      rw [detailSelectorsMerge_city, hdv]
      rfl
    unfold parse_detail_merge
    simp only []
    split
    · rw [foldl_enrich_city _ _ (by rw [hX]; exact h), hX]
    · exact hX
  · intro uj cfg it0 dv objs hdv h
    have hX : (detailSelectorsMerge uj cfg it0 dv).province = it0.province := by
      rw [detailSelectorsMerge_province, hdv]
      rfl
    unfold parse_detail_merge
    simp only []
    split
    · rw [foldl_enrich_province _ _ (by rw [hX]; exact h), hX]
    · exact hX
  · intro uj cfg it0 dv objs hdv h
    have hX : (detailSelectorsMerge uj cfg it0 dv).postal_code = it0.postal_code := by
      rw [detailSelectorsMerge_postal_code, hdv]
      rfl
    unfold parse_detail_merge
    simp only []
    split
    · rw [foldl_enrich_postal_code _ _ (by rw [hX]; exact h), hX]
    · exact hX

/-- C9 witness instance: a populated email survives a detail merge, a
detail business-name value lands on the item, and a detail phone value
overwrites the populated phone. -/
theorem detail_merge_field_semantics_witness :
    (parse_detail_merge uj0 dcfg0 itemA dvB []).email = itemA.email ∧
      (parse_detail_merge uj0 dcfg0 itemA dvB []).business_name = .val "B" ∧
      (parse_detail_merge uj0 dcfg0 itemA
        { dvB with phone := some "+16470000000" } []).phone =
        .val "+16470000000" :=
  ⟨detail_merge_field_semantics.2.1 uj0 dcfg0 itemA dvB [] (by decide),
    detail_merge_field_semantics.1 uj0 dcfg0 itemA dvB [] "B" rfl (by decide),
    detail_merge_field_semantics.2.2.2.2.2.1 uj0 dcfg0 itemA
      { dvB with phone := some "+16470000000" } [] "+16470000000" rfl
      (by decide)⟩

end JobsScraper
